import Mathlib

/-!
Shallow embedding of `autogoal/search/_base.py`.

The search engine (`SearchAlgorithm`) is a driving loop that repeatedly draws
candidate solutions from a generator, evaluates them with a fitness function,
tracks the best candidate seen so far, notifies a logger of every lifecycle
event, and stops on budget exhaustion, search timeout, early stop, external
interrupt, or a fatal evaluation error under the "raise" error policy.

Candidates are modelled by their global draw index (a `Nat`); fitness values by
`ℚ`.  The behaviour of the generator, the fitness function, the wall clock and
external interrupts is supplied as a trace `Nat → DrawOutcome` indexed by the
draw counter.  Logger calls are modelled as an emitted list of `Event`s.  The
`while` loop is given explicit fuel (a bound on the number of generations); the
run returns `none` when the fuel is insufficient, which models divergence.
-/

/-- Error policy of the engine: the Python `errors` argument, which is the
string `"raise"` or anything else (treated as "continue"). -/
inductive ErrorPolicy
  | raisePolicy
  | continuePolicy
deriving DecidableEq, Repr

/-- Outcome of one draw attempt, as seen by the engine:
the generator raises (`genFail`), the fitness call returns `fn` (`evalOk`),
the fitness call raises (`evalFail`), or a `KeyboardInterrupt` arrives at the
safe point before this draw (`interrupt`).  `spent` is the wall-clock time
`time.time() - start_time` observed at the timeout check after the evaluation. -/
inductive DrawOutcome
  | genFail
  | evalOk (fn : ℚ) (spent : ℚ)
  | evalFail (spent : ℚ)
  | interrupt
deriving DecidableEq, Repr

/-- One logger call made by `SearchAlgorithm.run`; constructors mirror the hook
methods of the Python `Logger` class with their arguments. -/
inductive Event
  | beginEv (evaluations : Nat)
  | startGeneration (evaluations : Nat) (best_fn : Option ℚ)
  | sampleSolution (solution : Nat)
  | errorEv (solution : Option Nat)
  | evalSolution (solution : Nat) (fn : ℚ)
  | updateBestEv (solution : Nat) (fn : ℚ) (prev : Option Nat) (prev_fn : Option ℚ)
  | finishGeneration (fns : List ℚ)
  | endEv (best : Option Nat) (best_fn : Option ℚ)
deriving DecidableEq, Repr

/-- The configuration fields of `SearchAlgorithm` used by `run`.
`early_stop = none` models Python `None`; `some 0` and `search_timeout = 0` are
falsy in Python and disable the respective check. -/
structure Config where
  pop_size : Nat
  maximize : Bool
  errors : ErrorPolicy
  early_stop : Option Nat
  search_timeout : Nat
deriving DecidableEq, Repr

/-- The mutable state of one `run` call: remaining budget, best pair,
no-improvement streak, global draw counter, and the logger calls so far. -/
structure RunState where
  evaluations : Nat
  best_solution : Option Nat
  best_fn : Option ℚ
  no_improvement : Nat
  draw_idx : Nat
  events : List Event
deriving DecidableEq, Repr

/-- The best-update condition of `run` (lines 102-106):
`best_fn is None or (fn > best_fn and maximize) or (fn < best_fn and not maximize)`. -/
def improves (maximize : Bool) (best_fn : Option ℚ) (fn : ℚ) : Bool :=
  match best_fn with
  | none => true
  | some bf => (fn > bf && maximize) || (fn < bf && !maximize)

/-- The search-timeout condition of `run` (lines 121-124):
`self._search_timeout and spent_time > self._search_timeout`. -/
def timeoutHit (cfg : Config) (spent : ℚ) : Bool :=
  cfg.search_timeout ≠ 0 && spent > (cfg.search_timeout : ℚ)

/-- The early-stop condition of `run` (line 129):
`self._early_stop and no_improvement > self._early_stop`. -/
def earlyStopHit (cfg : Config) (no_improvement : Nat) : Bool :=
  match cfg.early_stop with
  | none => false
  | some n => n ≠ 0 && no_improvement > n

/-- How the inner `for` loop of one generation ended:
ran through all `pop_size` draws, set `stop = True` for one of the three
reasons, re-raised a fitness error (`errors == "raise"`), or was interrupted. -/
inductive GenExit
  | fellThrough
  | stopBudget
  | stopTimeout
  | stopEarly
  | raisedE
  | interruptedE
deriving DecidableEq, Repr

/-- The tail of the loop body shared by successful and failed (policy
"continue") evaluations: `eval_solution`, `fns.append`, the best-update check,
`evaluations -= 1`, and the budget / timeout / early-stop checks (lines
99-132).  Returns `some exit` when `stop = True` was set (ending the
generation), `none` to continue with the next draw. -/
def evalAttempt (cfg : Config) (sol : Nat) (fn : ℚ) (spent : ℚ)
    (s : RunState) (fns : List ℚ) : RunState × List ℚ × Option GenExit :=
  let s1 : RunState := { s with events := s.events ++ [.evalSolution sol fn] }
  let s2 : RunState :=
    if improves cfg.maximize s1.best_fn fn then
      { s1 with
          events := s1.events ++ [.updateBestEv sol fn s1.best_solution s1.best_fn],
          best_solution := some sol,
          best_fn := some fn,
          no_improvement := 0 }
    else s1
  let s3 : RunState := { s2 with evaluations := s2.evaluations - 1, draw_idx := sol + 1 }
  (s3, fns ++ [fn],
    if s3.evaluations = 0 then some .stopBudget
    else if timeoutHit cfg spent then some .stopTimeout
    else if earlyStopHit cfg s3.no_improvement then some .stopEarly
    else none)

/-- The inner `for _ in range(self._pop_size)` loop of `run` (lines 77-132),
recursing on the number of remaining draws.  A generator failure logs `error`
and skips the draw; a fitness failure logs `error` with `fn = 0` and either
re-raises (after firing `end`) under the "raise" policy or continues. -/
def innerLoop (cfg : Config) (trace : Nat → DrawOutcome) :
    Nat → RunState → List ℚ → RunState × List ℚ × GenExit
  | 0, s, fns => (s, fns, .fellThrough)
  | Nat.succ m, s, fns =>
    match trace s.draw_idx with
    | .interrupt => (s, fns, .interruptedE)
    | .genFail =>
      innerLoop cfg trace m
        { s with draw_idx := s.draw_idx + 1, events := s.events ++ [.errorEv none] } fns
    | .evalOk v spent =>
      let sol := s.draw_idx
      let s1 : RunState := { s with events := s.events ++ [.sampleSolution sol] }
      match evalAttempt cfg sol v spent s1 fns with
      | (s2, fns2, some ex) => (s2, fns2, ex)
      | (s2, fns2, none) => innerLoop cfg trace m s2 fns2
    | .evalFail spent =>
      let sol := s.draw_idx
      let s1 : RunState :=
        { s with events := s.events ++ [.sampleSolution sol, .errorEv (some sol)] }
      if cfg.errors = .raisePolicy then
        ({ s1 with events := s1.events ++ [.endEv s1.best_solution s1.best_fn] },
          fns, .raisedE)
      else
        match evalAttempt cfg sol 0 spent s1 fns with
        | (s2, fns2, some ex) => (s2, fns2, ex)
        | (s2, fns2, none) => innerLoop cfg trace m s2 fns2

/-- Why a `run` terminated.  `fatal` is the re-raised evaluation error under
the "raise" policy; `interrupted` the caught `KeyboardInterrupt`.  The reason
is `none` when the `while` guard was already false on entry (budget 0). -/
inductive StopReason
  | budget
  | timeout
  | earlyStopped
  | interrupted
  | fatal
deriving DecidableEq, Repr

/-- The outer `while evaluations > 0` loop of `run` (lines 68-138), with fuel
bounding the number of generations; `none` models a run that needs more
generations than the fuel allows (e.g. divergence on endless generator
failures).  On a normal or stopped generation `finish_generation(fns)` fires;
a raise or interrupt propagates past it. -/
def outerLoop (cfg : Config) (trace : Nat → DrawOutcome) :
    Nat → RunState → Option (RunState × Option StopReason)
  | 0, s => if s.evaluations = 0 then some (s, none) else none
  | Nat.succ f, s =>
    if s.evaluations = 0 then some (s, none)
    else
      let s1 : RunState :=
        { s with
            events := s.events ++ [.startGeneration s.evaluations s.best_fn],
            no_improvement := s.no_improvement + 1 }
      match innerLoop cfg trace cfg.pop_size s1 [] with
      | (s2, _, .raisedE) => some (s2, some .fatal)
      | (s2, _, .interruptedE) => some (s2, some .interrupted)
      | (s2, fns, .fellThrough) =>
        outerLoop cfg trace f { s2 with events := s2.events ++ [.finishGeneration fns] }
      | (s2, fns, .stopBudget) =>
        some ({ s2 with events := s2.events ++ [.finishGeneration fns] }, some .budget)
      | (s2, fns, .stopTimeout) =>
        some ({ s2 with events := s2.events ++ [.finishGeneration fns] }, some .timeout)
      | (s2, fns, .stopEarly) =>
        some ({ s2 with events := s2.events ++ [.finishGeneration fns] }, some .earlyStopped)

/-- Result of a terminating `run`: the final best pair (the Python return
value when `raised = false`), the remaining budget, the logger calls, whether
the run re-raised an evaluation error, and the termination reason. -/
structure RunResult where
  best_solution : Option Nat
  best_fn : Option ℚ
  evaluations : Nat
  events : List Event
  raised : Bool
  reason : Option StopReason
deriving DecidableEq, Repr

namespace SearchAlgorithm

/-- Packaging of the loop's final state into the observable outcome of `run`:
on the fatal path (re-raise at line 97) the function never reaches line 143,
so no further `end` call is appended and nothing is returned; on every other
path `end` fires at line 143 and `(best_solution, best_fn)` is returned. -/
def finalize (p : RunState × Option StopReason) : RunResult :=
  if p.2 = some .fatal then
    { best_solution := p.1.best_solution, best_fn := p.1.best_fn,
      evaluations := p.1.evaluations, events := p.1.events,
      raised := true, reason := p.2 }
  else
    { best_solution := p.1.best_solution, best_fn := p.1.best_fn,
      evaluations := p.1.evaluations,
      events := p.1.events ++ [.endEv p.1.best_solution p.1.best_fn],
      raised := false, reason := p.2 }

/-- Model of `SearchAlgorithm.run` (lines 44-144) for a finite budget: `begin` fires,
the `while` loop runs, and the final state is packaged by `finalize`. -/
def run (cfg : Config) (trace : Nat → DrawOutcome) (evaluations : Nat) (fuel : Nat) :
    Option RunResult :=
  let s0 : RunState :=
    { evaluations := evaluations, best_solution := none, best_fn := none,
      no_improvement := 0, draw_idx := 0, events := [.beginEv evaluations] }
  Option.map finalize (outerLoop cfg trace fuel s0)

end SearchAlgorithm

/-- Holds of the `end` hook call. -/
def isEndEv : Event → Bool
  | .endEv _ _ => true
  | _ => false

/-- Holds of the `sample_solution` hook call, which fires exactly once per
attempted fitness evaluation (line 89, just before `self._fitness_fn`). -/
def isSampleEv : Event → Bool
  | .sampleSolution _ => true
  | _ => false

/-- Holds of the `start_generation` hook call. -/
def isStartGenEv : Event → Bool
  | .startGeneration _ _ => true
  | _ => false

/-- Holds of the `eval_solution` hook call. -/
def isEvalSolEv : Event → Bool
  | .evalSolution _ _ => true
  | _ => false

/-- Number of `end` calls in a trace. -/
def countEnd (evs : List Event) : Nat := (evs.filter isEndEv).length

/-- Number of attempted fitness evaluations in a trace. -/
def countSamples (evs : List Event) : Nat := (evs.filter isSampleEv).length

/-- Number of generations started in a trace. -/
def countStartGen (evs : List Event) : Nat := (evs.filter isStartGenEv).length

/-- Number of `eval_solution` calls in a trace. -/
def countEvalSol (evs : List Event) : Nat := (evs.filter isEvalSolEv).length

/-- The successive fitness values passed to `update_best`, i.e. the successive
values taken by `best_fn` over the run. -/
def updateFns (evs : List Event) : List ℚ :=
  evs.filterMap fun e =>
    match e with
    | .updateBestEv _ fn _ _ => some fn
    | _ => none

/-- The result of a successful `SearchAlgorithm.__init__` (lines 14-42): the
stored fields.  `fitness_restricted` records whether `_fitness_fn` was wrapped
in `RestrictedWorkerByJoin` (line 39-42). -/
structure InitState (γ : Type) (α : Type) where
  generator_fn : γ
  fitness_fn : α → α
  pop_size : Int
  maximize : Bool
  errors : ErrorPolicy
  evaluation_timeout : Int
  memory_limit : Int
  early_stop : Option Int
  search_timeout : Int
  fitness_restricted : Bool

namespace SearchAlgorithm

/-- Model of `SearchAlgorithm._build_sampler` (lines 146-147): the base class raises
`NotImplementedError`. -/
def build_sampler {γ : Type} : Except String γ := .error "NotImplementedError"

/-- Model of `SearchAlgorithm.__init__` (lines 14-42).  Raises `ValueError` when both
`generator_fn` and `fitness_fn` are `None` (lines 26-27).  Otherwise
`generator_fn or self._build_sampler()` (line 29) calls the `build` method
eagerly when `generator_fn` is `None` (and so fails when `build` raises, as
the base class's `_build_sampler` does); `fitness_fn or (lambda x: x)`
(line 30) substitutes the identity; every numeric field is stored without
validation.  The fitness function is wrapped (`fitness_restricted`) iff
`evaluation_timeout > 0 or memory_limit > 0` (line 39). -/
def init {γ α : Type} (generator_fn : Option γ) (fitness_fn : Option (α → α))
    (build : Except String γ) (pop_size : Int) (maximize : Bool)
    (errors : ErrorPolicy) (early_stop : Option Int) (evaluation_timeout : Int)
    (memory_limit : Int) (search_timeout : Int) : Except String (InitState γ α) :=
  if generator_fn.isNone && fitness_fn.isNone then
    Except.error "You must provide either generator_fn or fitness_fn"
  else do
    let g ← match generator_fn with
      | some g => Except.ok g
      | none => build
    Except.ok
      { generator_fn := g
        fitness_fn := fitness_fn.getD (fun x => x)
        pop_size := pop_size
        maximize := maximize
        errors := errors
        evaluation_timeout := evaluation_timeout
        memory_limit := memory_limit
        early_stop := early_stop
        search_timeout := search_timeout
        fitness_restricted := decide (0 < evaluation_timeout ∨ 0 < memory_limit) }

end SearchAlgorithm

/-- The state of `MemoryLogger` (lines 236-250): the best-so-far fitness per
generation, with a trailing working slot for the generation in progress
(initialised to `[0]`), and the mean fitness per finished generation. -/
structure MemoryLoggerState where
  generation_best_fn : List ℚ
  generation_mean_fn : List ℚ
deriving DecidableEq, Repr

/-- Model of `statistics.mean(fns)` under `MemoryLogger.finish_generation`'s
`try/except` (lines 244-248): the arithmetic mean, or 0 when
`statistics.mean` raises on an empty sequence. -/
def pyMean (fns : List ℚ) : ℚ :=
  if fns = [] then 0 else fns.sum / fns.length

namespace MemoryLogger

/-- Model of `MemoryLogger.__init__` (lines 237-239). -/
def init : MemoryLoggerState :=
  { generation_best_fn := [0], generation_mean_fn := [] }

/-- Dispatch of one engine event to `MemoryLogger`'s hooks: `update_best`
assigns `generation_best_fn[-1] = new_fn` (line 242); `finish_generation`
appends the generation mean and duplicates the last best-so-far entry into a
fresh working slot (lines 249-250); every other hook is an inherited no-op. -/
def step (st : MemoryLoggerState) : Event → MemoryLoggerState
  | .updateBestEv _ fn _ _ =>
    { st with generation_best_fn := st.generation_best_fn.dropLast ++ [fn] }
  | .finishGeneration fns =>
    { generation_mean_fn := st.generation_mean_fn ++ [pyMean fns]
      generation_best_fn :=
        st.generation_best_fn ++ [(st.generation_best_fn.getLast?).getD 0] }
  | _ => st

/-- A `MemoryLogger` observing a whole engine event trace. -/
def observe (evs : List Event) : MemoryLoggerState := evs.foldl step init

end MemoryLogger

namespace MultiLogger

/-- One hook call forwarded by `MultiLogger.run` (lines 257-259):
`for logger in self.loggers: getattr(logger, name)(*args)` delivers the same
event to each registered logger in registration order; a delivered call is
the pair (logger, event). -/
def dispatch (loggers : List Nat) (e : Event) : List (Nat × Event) :=
  loggers.map fun l => (l, e)

/-- All hook calls a `MultiLogger` delivers over an engine event trace. -/
def observe (loggers : List Nat) (evs : List Event) : List (Nat × Event) :=
  evs.flatMap (dispatch loggers)

end MultiLogger

/-- The sub-sequence of calls one registered logger receives from a
`MultiLogger` dispatch. -/
def observerView (l : Nat) (calls : List (Nat × Event)) : List Event :=
  calls.filterMap fun c => if c.1 = l then some c.2 else none

/-- The engine configuration of the C8 scenario: two-candidate generations,
maximisation, error policy "continue", no early stop, no search timeout. -/
def cfg8 : Config :=
  { pop_size := 2, maximize := true, errors := .continuePolicy,
    early_stop := none, search_timeout := 0 }

/-- The C8 scenario trace: generation 1 yields fitnesses 1 and 2, generation 2
yields fitness 3 and then a failed evaluation. -/
def trace8 : Nat → DrawOutcome :=
  fun k => [DrawOutcome.evalOk 1 0, .evalOk 2 0, .evalOk 3 0, .evalFail 0].getD k .genFail

/-- The full logger-call trace of the C8 scenario run. -/
def events8 : List Event :=
  [.beginEv 4, .startGeneration 4 none,
   .sampleSolution 0, .evalSolution 0 1, .updateBestEv 0 1 none none,
   .sampleSolution 1, .evalSolution 1 2, .updateBestEv 1 2 (some 0) (some 1),
   .finishGeneration [1, 2],
   .startGeneration 2 (some 2),
   .sampleSolution 2, .evalSolution 2 3, .updateBestEv 2 3 (some 1) (some 2),
   .sampleSolution 3, .errorEv (some 3), .evalSolution 3 0,
   .finishGeneration [3, 0],
   .endEv (some 2) (some 3)]

/-- The result of the C8 scenario run. -/
def result8 : RunResult :=
  { best_solution := some 2, best_fn := some 3, evaluations := 0,
    events := events8, raised := false, reason := some .budget }

/-- A one-candidate-per-generation maximising configuration with no early stop
and no search timeout, error policy "continue". -/
def cfgPlain : Config :=
  { pop_size := 1, maximize := true, errors := .continuePolicy,
    early_stop := none, search_timeout := 0 }

/-- A trace on which every draw evaluates successfully to fitness 1. -/
def traceOnes : Nat → DrawOutcome := fun _ => .evalOk 1 0

/-- The result of `run cfgPlain traceOnes 2 2`. -/
def resultPlain : RunResult :=
  { best_solution := some 0, best_fn := some 1, evaluations := 0,
    events := [.beginEv 2, .startGeneration 2 none, .sampleSolution 0,
      .evalSolution 0 1, .updateBestEv 0 1 none none, .finishGeneration [1],
      .startGeneration 1 (some 1), .sampleSolution 1, .evalSolution 1 1,
      .finishGeneration [1], .endEv (some 0) (some 1)],
    raised := false, reason := some .budget }

/-- A one-candidate-per-generation maximising configuration under the "raise"
error policy, no early stop, no search timeout. -/
def cfgRaise : Config :=
  { pop_size := 1, maximize := true, errors := .raisePolicy,
    early_stop := none, search_timeout := 0 }

/-- A trace on which every fitness evaluation raises. -/
def traceFails : Nat → DrawOutcome := fun _ => .evalFail 0

/-- The result of `run cfgRaise traceFails 2 1`: the first evaluation attempt
raises, `end` fires with the absent best, and the error propagates. -/
def resultFatal : RunResult :=
  { best_solution := none, best_fn := none, evaluations := 2,
    events := [.beginEv 2, .startGeneration 2 none, .sampleSolution 0,
      .errorEv (some 0), .endEv none none],
    raised := true, reason := some .fatal }

/-- Strict improvement in the configured direction: the order in which
successive `best_fn` values must evolve. -/
def bestRel (maximize : Bool) (a b : ℚ) : Prop :=
  if maximize then a < b else b < a

/-- The result of `run cfgPlain traceFails 1 1`: the single evaluation fails
under policy "continue", its fitness is forced to 0, and — because `best_fn`
is `None` — the update check at line 102 promotes the failing candidate to
best with fitness 0. -/
def resultFailBest : RunResult :=
  { best_solution := some 0, best_fn := some 0, evaluations := 0,
    events := [.beginEv 1, .startGeneration 1 none, .sampleSolution 0,
      .errorEv (some 0), .evalSolution 0 0, .updateBestEv 0 0 none none,
      .finishGeneration [0], .endEv (some 0) (some 0)],
    raised := false, reason := some .budget }

/-- The result of the zero-budget run `run cfgPlain traceOnes 0 0`. -/
def resultEmptyRun : RunResult :=
  { best_solution := none, best_fn := none, evaluations := 0,
    events := [.beginEv 0, .endEv none none], raised := false, reason := none }

/-- The engine configuration of the early-stop scenario: one candidate per
generation, maximising, policy "continue", `early_stop = N`, no timeout. -/
def cfg5 (N : Nat) : Config :=
  { pop_size := 1, maximize := true, errors := .continuePolicy,
    early_stop := some N, search_timeout := 0 }

/-- The result of `run (cfg5 1) traceOnes 10 10`: the first generation
improves, the plateau then lasts two further generations (streak 1, then
streak 2 > 1) before the early stop fires. -/
def result5 : RunResult :=
  { best_solution := some 0, best_fn := some 1, evaluations := 7,
    events := [.beginEv 10, .startGeneration 10 none, .sampleSolution 0,
      .evalSolution 0 1, .updateBestEv 0 1 none none, .finishGeneration [1],
      .startGeneration 9 (some 1), .sampleSolution 1, .evalSolution 1 1,
      .finishGeneration [1],
      .startGeneration 8 (some 1), .sampleSolution 2, .evalSolution 2 1,
      .finishGeneration [1],
      .endEv (some 0) (some 1)],
    raised := false, reason := some .earlyStopped }

/-- Claim C7, counterexample: constructing with `pop_size = 0` and negative
timeout and memory limits is accepted (`__init__` returns normally), not
rejected with a failure. -/
theorem claim_C7_counterexample :
    (SearchAlgorithm.init (γ := Unit) (α := ℚ) (some ()) none
      SearchAlgorithm.build_sampler 0 true .raisePolicy none (-1) (-1) (-1)).isOk
      = true := by
  rfl

/-- Claim C7, amended: construction validates only that `generator_fn` and
`fitness_fn` are not both absent (raising `ValueError` in that case); numeric
configuration is stored unvalidated, so any `pop_size` (including values
below 1) and any negative timeout or memory limit produce a usable instance
storing those values as given. -/
theorem claim_C7_amended :
    (∀ (pop et ml st : Int) (es : Option Int) (m : Bool) (e : ErrorPolicy),
      ∃ inst, SearchAlgorithm.init (γ := Unit) (α := ℚ) (some ()) none
          SearchAlgorithm.build_sampler pop m e es et ml st = Except.ok inst ∧
        inst.pop_size = pop ∧ inst.evaluation_timeout = et ∧
        inst.memory_limit = ml ∧ inst.search_timeout = st) ∧
    SearchAlgorithm.init (γ := Unit) (α := ℚ) none none
        SearchAlgorithm.build_sampler 1 true .raisePolicy none 300 4 3600 =
      Except.error "You must provide either generator_fn or fitness_fn" := by
  constructor
  · intro pop et ml st es m e
    exact ⟨_, rfl, rfl, rfl, rfl, rfl⟩
  · rfl

/-- Claim C10, counterexample: providing only `fitness_fn` to the base class
does not produce an instance — `generator_fn or self._build_sampler()` calls
`_build_sampler`, which raises `NotImplementedError`. -/
theorem claim_C10_counterexample :
    (SearchAlgorithm.init (γ := Unit) (α := ℚ) none (some (fun x => x))
      SearchAlgorithm.build_sampler 1 true .raisePolicy none 300 4 3600).isOk
      = false := by
  rfl

/-- Claim C10, amended: constructing with both `generator_fn` and `fitness_fn`
absent raises `ValueError` and creates no instance; providing `generator_fn`
succeeds, with the identity substituted for a missing `fitness_fn`; providing
only `fitness_fn` succeeds exactly when `_build_sampler` does — in the base
class it raises `NotImplementedError`, so construction fails there. -/
theorem claim_C10_amended :
    (SearchAlgorithm.init (γ := Unit) (α := ℚ) none none
        SearchAlgorithm.build_sampler 1 true .raisePolicy none 300 4 3600 =
      Except.error "You must provide either generator_fn or fitness_fn") ∧
    (∀ (g : Unit) (x : ℚ),
      ∃ inst, SearchAlgorithm.init (γ := Unit) (α := ℚ) (some g) none
          SearchAlgorithm.build_sampler 1 true .raisePolicy none 300 4 3600 =
          Except.ok inst ∧ inst.fitness_fn x = x) ∧
    (∀ (f : ℚ → ℚ) (build : Except String Unit),
      (SearchAlgorithm.init (γ := Unit) (α := ℚ) none (some f) build
        1 true .raisePolicy none 300 4 3600).isOk = build.isOk) ∧
    SearchAlgorithm.build_sampler (γ := Unit) = Except.error "NotImplementedError"
    := by
  refine ⟨rfl, ?_, ?_, rfl⟩
  · intro g x
    exact ⟨_, rfl, rfl⟩
  · intro f build
    cases build <;> rfl

/-- Claim C8: on the two-generation scenario (generation 1 fitnesses [1, 2];
generation 2 fitness 3 then a failure under policy "continue"), the
`MemoryLogger` records the per-generation mean series [3/2, 3/2] (the failure
counted as 0) and the per-generation best-so-far series [2, 3] (its
`generation_best_fn` list carries one extra trailing working slot for the
never-finished next generation); the mean of an empty sequence is 0. -/
theorem claim_C8 :
    SearchAlgorithm.run cfg8 trace8 4 2 = some result8 ∧
    (MemoryLogger.observe result8.events).generation_mean_fn = [3/2, 3/2] ∧
    (MemoryLogger.observe result8.events).generation_best_fn.dropLast = [2, 3] ∧
    pyMean [] = 0 := by
  refine ⟨by decide, ?_, ?_, rfl⟩ <;>
  norm_num [result8, events8, MemoryLogger.observe, MemoryLogger.step,
    MemoryLogger.init, pyMean, List.cons_ne_nil]

/-- Claim C9: a `MultiLogger` over observers `[a, b]` delivers every engine
event first to `a` and then to `b` with identical arguments, and each
observer's view of the dispatch equals the single-observer event sequence. -/
theorem claim_C9 (a b : Nat) (h : a ≠ b) (evs : List Event) :
    MultiLogger.observe [a, b] evs = evs.flatMap (fun e => [(a, e), (b, e)]) ∧
    observerView a (MultiLogger.observe [a, b] evs) = evs ∧
    observerView b (MultiLogger.observe [a, b] evs) = evs := by
  refine ⟨rfl, ?_, ?_⟩ <;>
  · induction evs with
    | nil => rfl
    | cons e t ih =>
      simp only [MultiLogger.observe, MultiLogger.dispatch, observerView,
        List.flatMap_cons, List.map_cons, List.map_nil, List.filterMap_append,
        List.filterMap_cons, List.filterMap_nil] at ih ⊢
      simp [h, Ne.symm h, ih]

/-- Claim C9, witness: observer 0 of a `MultiLogger` over `[0, 1]` sees the
one-event engine sequence unchanged. -/
theorem claim_C9_witness :
    observerView 0 (MultiLogger.observe [0, 1] [Event.beginEv 5]) =
      [Event.beginEv 5] :=
  (claim_C9 0 1 (by decide) [Event.beginEv 5]).2.1

@[simp]
theorem countEnd_append (a b : List Event) :
    countEnd (a ++ b) = countEnd a + countEnd b := by
  simp [countEnd, List.filter_append]

@[simp]
theorem countSamples_append (a b : List Event) :
    countSamples (a ++ b) = countSamples a + countSamples b := by
  simp [countSamples, List.filter_append]

@[simp]
theorem countStartGen_append (a b : List Event) :
    countStartGen (a ++ b) = countStartGen a + countStartGen b := by
  simp [countStartGen, List.filter_append]

@[simp]
theorem countEvalSol_append (a b : List Event) :
    countEvalSol (a ++ b) = countEvalSol a + countEvalSol b := by
  simp [countEvalSol, List.filter_append]

@[simp]
theorem updateFns_append (a b : List Event) :
    updateFns (a ++ b) = updateFns a ++ updateFns b := by
  simp [updateFns, List.filterMap_append]

theorem evalAttempt_countEnd (cfg : Config) (sol : Nat) (fn spent : ℚ)
    (s : RunState) (fns : List ℚ) :
    countEnd (evalAttempt cfg sol fn spent s fns).1.events = countEnd s.events := by
  by_cases h : improves cfg.maximize s.best_fn fn <;>
    simp [evalAttempt, h, countEnd, isEndEv]

theorem evalAttempt_ne_raised (cfg : Config) (sol : Nat) (fn spent : ℚ)
    (s : RunState) (fns : List ℚ) :
    (evalAttempt cfg sol fn spent s fns).2.2 ≠ some GenExit.raisedE := by
  simp only [evalAttempt]
  split_ifs <;> simp

theorem evalAttempt_ne_interrupted (cfg : Config) (sol : Nat) (fn spent : ℚ)
    (s : RunState) (fns : List ℚ) :
    (evalAttempt cfg sol fn spent s fns).2.2 ≠ some GenExit.interruptedE := by
  simp only [evalAttempt]
  split_ifs <;> simp

theorem innerLoop_countEnd (cfg : Config) (trace : Nat → DrawOutcome) :
    ∀ (m : Nat) (s : RunState) (fns : List ℚ),
      countEnd (innerLoop cfg trace m s fns).1.events =
        countEnd s.events +
          (if (innerLoop cfg trace m s fns).2.2 = GenExit.raisedE then 1 else 0) := by
  intro m
  induction m with
  | zero =>
    intro s fns
    simp [innerLoop]
  | succ m ih =>
    intro s fns
    simp only [innerLoop]
    cases htr : trace s.draw_idx with
    | interrupt => simp
    | genFail =>
      rw [ih]
      simp [countEnd, isEndEv]
    | evalOk v spent =>
      rcases hea : evalAttempt cfg s.draw_idx v spent
          { s with events := s.events ++ [Event.sampleSolution s.draw_idx] } fns
        with ⟨s2, fns2, oex⟩
      have hce := evalAttempt_countEnd cfg s.draw_idx v spent
        { s with events := s.events ++ [Event.sampleSolution s.draw_idx] } fns
      have hnr := evalAttempt_ne_raised cfg s.draw_idx v spent
        { s with events := s.events ++ [Event.sampleSolution s.draw_idx] } fns
      rw [hea] at hce hnr
      cases oex with
      | some ex' =>
        have hex : ex' ≠ GenExit.raisedE := fun hx => hnr (by simp [hx])
        simp only [hea]
        rw [hce, countEnd_append, if_neg hex]
        simp [countEnd, isEndEv]
      | none =>
        simp only [hea]
        rw [ih s2 fns2, hce, countEnd_append]
        simp [countEnd, isEndEv]
    | evalFail spent =>
      by_cases hp : cfg.errors = ErrorPolicy.raisePolicy
      · simp [hp, countEnd, isEndEv]
      · simp only [hp, if_neg, ite_false]
        rcases hea : evalAttempt cfg s.draw_idx 0 spent
            { s with events :=
                s.events ++ [Event.sampleSolution s.draw_idx, Event.errorEv (some s.draw_idx)] }
            fns
          with ⟨s2, fns2, oex⟩
        have hce := evalAttempt_countEnd cfg s.draw_idx 0 spent
          { s with events :=
              s.events ++ [Event.sampleSolution s.draw_idx, Event.errorEv (some s.draw_idx)] } fns
        have hnr := evalAttempt_ne_raised cfg s.draw_idx 0 spent
          { s with events :=
              s.events ++ [Event.sampleSolution s.draw_idx, Event.errorEv (some s.draw_idx)] } fns
        rw [hea] at hce hnr
        cases oex with
        | some ex' =>
          have hex : ex' ≠ GenExit.raisedE := fun hx => hnr (by simp [hx])
          simp only [hea]
          rw [hce, countEnd_append, if_neg hex]
          simp [countEnd, isEndEv]
        | none =>
          simp only [hea]
          rw [ih s2 fns2, hce, countEnd_append]
          simp [countEnd, isEndEv]

theorem outerLoop_countEnd (cfg : Config) (trace : Nat → DrawOutcome) :
    ∀ (f : Nat) (s s' : RunState) (r : Option StopReason),
      outerLoop cfg trace f s = some (s', r) →
      countEnd s'.events = countEnd s.events +
        (if r = some StopReason.fatal then 1 else 0) := by
  intro f
  induction f with
  | zero =>
    intro s s' r h
    simp only [outerLoop] at h
    by_cases he : s.evaluations = 0
    · rw [if_pos he] at h
      simp only [Option.some.injEq, Prod.mk.injEq] at h
      obtain ⟨rfl, rfl⟩ := h
      simp
    · rw [if_neg he] at h
      exact absurd h (by simp)
  | succ f ih =>
    intro s s' r h
    simp only [outerLoop] at h
    by_cases he : s.evaluations = 0
    · rw [if_pos he] at h
      simp only [Option.some.injEq, Prod.mk.injEq] at h
      obtain ⟨rfl, rfl⟩ := h
      simp
    · rw [if_neg he] at h
      rcases hin : innerLoop cfg trace cfg.pop_size
          { s with events := s.events ++ [Event.startGeneration s.evaluations s.best_fn],
                   no_improvement := s.no_improvement + 1 } []
        with ⟨s2, fns, ex⟩
      have hend := innerLoop_countEnd cfg trace cfg.pop_size
        { s with events := s.events ++ [Event.startGeneration s.evaluations s.best_fn],
                 no_improvement := s.no_improvement + 1 } []
      rw [hin] at hend h
      simp only at hend
      cases ex with
      | raisedE =>
        simp only [Option.some.injEq, Prod.mk.injEq] at h
        obtain ⟨rfl, rfl⟩ := h
        simp [countEnd, isEndEv] at hend ⊢
        omega
      | interruptedE =>
        simp only [Option.some.injEq, Prod.mk.injEq] at h
        obtain ⟨rfl, rfl⟩ := h
        simp [countEnd, isEndEv] at hend ⊢
        omega
      | fellThrough =>
        have h2 := ih _ _ _ h
        simp [countEnd, isEndEv] at hend h2 ⊢
        generalize (if r = some StopReason.fatal then (1 : Nat) else 0) = k at h2 ⊢
        omega
      | stopBudget =>
        simp only [Option.some.injEq, Prod.mk.injEq] at h
        obtain ⟨rfl, rfl⟩ := h
        simp [countEnd, isEndEv] at hend ⊢
        omega
      | stopTimeout =>
        simp only [Option.some.injEq, Prod.mk.injEq] at h
        obtain ⟨rfl, rfl⟩ := h
        simp [countEnd, isEndEv] at hend ⊢
        omega
      | stopEarly =>
        simp only [Option.some.injEq, Prod.mk.injEq] at h
        obtain ⟨rfl, rfl⟩ := h
        simp [countEnd, isEndEv] at hend ⊢
        omega

/-- Claim C3: every terminating call to `run` invokes the logger's `end` hook
exactly once — on normal or budget-exhausted termination, search timeout,
early stop, or interrupt it fires at line 143; on a fatal evaluation error
under the "raise" policy it fired at line 96, and the re-raised exception
propagates past line 143 (only `KeyboardInterrupt` is caught). -/
theorem claim_C3 (cfg : Config) (trace : Nat → DrawOutcome) (E fuel : Nat)
    (r : RunResult) (h : SearchAlgorithm.run cfg trace E fuel = some r) :
    countEnd r.events = 1 := by
  simp only [SearchAlgorithm.run] at h
  rcases ho : outerLoop cfg trace fuel
      { evaluations := E, best_solution := none, best_fn := none,
        no_improvement := 0, draw_idx := 0, events := [Event.beginEv E] }
    with _ | ⟨s, reason⟩
  · rw [ho] at h
    exact absurd h (by simp)
  · have hoe := outerLoop_countEnd cfg trace fuel _ s reason ho
    rw [ho] at h
    simp only [Option.map_some', Option.some.injEq] at h
    subst h
    by_cases hf : reason = some StopReason.fatal
    · rw [if_pos hf] at hoe
      simp only [SearchAlgorithm.finalize, if_pos hf]
      rw [hoe]
      simp [countEnd, isEndEv]
    · rw [if_neg hf] at hoe
      simp only [SearchAlgorithm.finalize, if_neg hf, countEnd_append]
      rw [hoe]
      simp [countEnd, isEndEv]

/-- Claim C3, witness: a concrete two-evaluation run calls `end` once. -/
theorem claim_C3_witness : countEnd resultPlain.events = 1 :=
  claim_C3 cfgPlain traceOnes 2 2 resultPlain (by decide)

theorem evalAttempt_countSamples (cfg : Config) (sol : Nat) (fn spent : ℚ)
    (s : RunState) (fns : List ℚ) :
    countSamples (evalAttempt cfg sol fn spent s fns).1.events =
      countSamples s.events := by
  by_cases h : improves cfg.maximize s.best_fn fn <;>
    simp [evalAttempt, h, countSamples, isSampleEv]

theorem evalAttempt_evaluations (cfg : Config) (sol : Nat) (fn spent : ℚ)
    (s : RunState) (fns : List ℚ) :
    (evalAttempt cfg sol fn spent s fns).1.evaluations = s.evaluations - 1 := by
  by_cases h : improves cfg.maximize s.best_fn fn <;> simp [evalAttempt, h]

theorem evalAttempt_stopBudget_zero (cfg : Config) (sol : Nat) (fn spent : ℚ)
    (s : RunState) (fns : List ℚ)
    (h : (evalAttempt cfg sol fn spent s fns).2.2 = some GenExit.stopBudget) :
    (evalAttempt cfg sol fn spent s fns).1.evaluations = 0 := by
  simp only [evalAttempt] at h ⊢
  split_ifs at h with h1 h2 h3 <;> simp_all

theorem evalAttempt_not_budget_pos (cfg : Config) (sol : Nat) (fn spent : ℚ)
    (s : RunState) (fns : List ℚ)
    (h : (evalAttempt cfg sol fn spent s fns).2.2 ≠ some GenExit.stopBudget) :
    (evalAttempt cfg sol fn spent s fns).1.evaluations ≠ 0 := by
  simp only [evalAttempt] at h ⊢
  intro h0
  exact h (by rw [if_pos h0])

theorem evalAttempt_some_cases (cfg : Config) (sol : Nat) (fn spent : ℚ)
    (s : RunState) (fns : List ℚ) (ex : GenExit)
    (h : (evalAttempt cfg sol fn spent s fns).2.2 = some ex) :
    ex = GenExit.stopBudget ∨ ex = GenExit.stopTimeout ∨ ex = GenExit.stopEarly := by
  simp only [evalAttempt] at h
  split_ifs at h <;> simp_all

theorem innerLoop_budget (cfg : Config) (trace : Nat → DrawOutcome) :
    ∀ (m : Nat) (s : RunState) (fns : List ℚ), 1 ≤ s.evaluations →
      ((innerLoop cfg trace m s fns).2.2 ≠ GenExit.raisedE →
        countSamples (innerLoop cfg trace m s fns).1.events +
            (innerLoop cfg trace m s fns).1.evaluations =
          countSamples s.events + s.evaluations) ∧
      ((innerLoop cfg trace m s fns).2.2 = GenExit.stopBudget →
        (innerLoop cfg trace m s fns).1.evaluations = 0) ∧
      ((innerLoop cfg trace m s fns).2.2 = GenExit.fellThrough →
        1 ≤ (innerLoop cfg trace m s fns).1.evaluations) := by
  intro m
  induction m with
  | zero =>
    intro s fns hs
    refine ⟨fun _ => rfl, fun hx => ?_, fun _ => hs⟩
    simp [innerLoop] at hx
  | succ m ih =>
    intro s fns hs
    simp only [innerLoop]
    cases htr : trace s.draw_idx with
    | interrupt =>
      refine ⟨fun _ => rfl, fun hx => ?_, fun hx => ?_⟩ <;> simp at hx
    | genFail =>
      have := ih { s with draw_idx := s.draw_idx + 1,
                          events := s.events ++ [Event.errorEv none] } fns hs
      simpa [countSamples, isSampleEv] using this
    | evalOk v spent =>
      rcases hea : evalAttempt cfg s.draw_idx v spent
          { s with events := s.events ++ [Event.sampleSolution s.draw_idx] } fns
        with ⟨s2, fns2, oex⟩
      have hcnt := evalAttempt_countSamples cfg s.draw_idx v spent
        { s with events := s.events ++ [Event.sampleSolution s.draw_idx] } fns
      have hev := evalAttempt_evaluations cfg s.draw_idx v spent
        { s with events := s.events ++ [Event.sampleSolution s.draw_idx] } fns
      rw [hea] at hcnt hev
      simp only at hcnt hev
      simp only [countSamples_append] at hcnt
      cases oex with
      | some ex' =>
        have hcases := evalAttempt_some_cases cfg s.draw_idx v spent
          { s with events := s.events ++ [Event.sampleSolution s.draw_idx] } fns ex'
        rw [hea] at hcases
        have hz := evalAttempt_stopBudget_zero cfg s.draw_idx v spent
          { s with events := s.events ++ [Event.sampleSolution s.draw_idx] } fns
        rw [hea] at hz
        simp only [hea]
        refine ⟨fun _ => ?_, fun hx => ?_, fun hx => ?_⟩
        · rw [hcnt, hev]
          simp [countSamples, isSampleEv]
          omega
        · exact hz (by rw [hx])
        · rcases hcases rfl with h1 | h1 | h1 <;> rw [h1] at hx <;> exact absurd hx (by simp)
      | none =>
        have hpos := evalAttempt_not_budget_pos cfg s.draw_idx v spent
          { s with events := s.events ++ [Event.sampleSolution s.draw_idx] } fns
          (by rw [hea]; simp)
        rw [hea] at hpos
        simp only at hpos
        have hrec := ih s2 fns2 (by omega)
        simp only [hea]
        refine ⟨fun hnr => ?_, hrec.2.1, hrec.2.2⟩
        · rw [hrec.1 hnr, hcnt, hev]
          simp [countSamples, isSampleEv]
          omega
    | evalFail spent =>
      by_cases hp : cfg.errors = ErrorPolicy.raisePolicy
      · simp only [hp, if_pos]
        refine ⟨fun hx => absurd rfl hx, fun hx => ?_, fun hx => ?_⟩ <;> simp at hx
      · simp only [hp, ite_false]
        rcases hea : evalAttempt cfg s.draw_idx 0 spent
            { s with events := s.events ++
                [Event.sampleSolution s.draw_idx, Event.errorEv (some s.draw_idx)] } fns
          with ⟨s2, fns2, oex⟩
        have hcnt := evalAttempt_countSamples cfg s.draw_idx 0 spent
          { s with events := s.events ++
              [Event.sampleSolution s.draw_idx, Event.errorEv (some s.draw_idx)] } fns
        have hev := evalAttempt_evaluations cfg s.draw_idx 0 spent
          { s with events := s.events ++
              [Event.sampleSolution s.draw_idx, Event.errorEv (some s.draw_idx)] } fns
        rw [hea] at hcnt hev
        simp only at hcnt hev
        simp only [countSamples_append] at hcnt
        cases oex with
        | some ex' =>
          have hcases := evalAttempt_some_cases cfg s.draw_idx 0 spent
            { s with events := s.events ++
                [Event.sampleSolution s.draw_idx, Event.errorEv (some s.draw_idx)] } fns ex'
          rw [hea] at hcases
          have hz := evalAttempt_stopBudget_zero cfg s.draw_idx 0 spent
            { s with events := s.events ++
                [Event.sampleSolution s.draw_idx, Event.errorEv (some s.draw_idx)] } fns
          rw [hea] at hz
          simp only [hea]
          refine ⟨fun _ => ?_, fun hx => ?_, fun hx => ?_⟩
          · rw [hcnt, hev]
            simp [countSamples, isSampleEv]
            omega
          · exact hz (by rw [hx])
          · rcases hcases rfl with h1 | h1 | h1 <;> rw [h1] at hx <;> exact absurd hx (by simp)
        | none =>
          have hpos := evalAttempt_not_budget_pos cfg s.draw_idx 0 spent
            { s with events := s.events ++
                [Event.sampleSolution s.draw_idx, Event.errorEv (some s.draw_idx)] } fns
            (by rw [hea]; simp)
          rw [hea] at hpos
          simp only at hpos
          have hrec := ih s2 fns2 (by omega)
          simp only [hea]
          refine ⟨fun hnr => ?_, hrec.2.1, hrec.2.2⟩
          · rw [hrec.1 hnr, hcnt, hev]
            simp [countSamples, isSampleEv]
            omega

theorem outerLoop_budget (cfg : Config) (trace : Nat → DrawOutcome) :
    ∀ (f : Nat) (s s' : RunState) (r : Option StopReason),
      outerLoop cfg trace f s = some (s', r) →
      (r ≠ some StopReason.fatal →
        countSamples s'.events + s'.evaluations =
          countSamples s.events + s.evaluations) ∧
      ((r = some StopReason.budget ∨ r = none) → s'.evaluations = 0) := by
  intro f
  induction f with
  | zero =>
    intro s s' r h
    simp only [outerLoop] at h
    by_cases he : s.evaluations = 0
    · rw [if_pos he] at h
      simp only [Option.some.injEq, Prod.mk.injEq] at h
      obtain ⟨rfl, rfl⟩ := h
      exact ⟨fun _ => rfl, fun _ => he⟩
    · rw [if_neg he] at h
      exact absurd h (by simp)
  | succ f ih =>
    intro s s' r h
    simp only [outerLoop] at h
    by_cases he : s.evaluations = 0
    · rw [if_pos he] at h
      simp only [Option.some.injEq, Prod.mk.injEq] at h
      obtain ⟨rfl, rfl⟩ := h
      exact ⟨fun _ => rfl, fun _ => he⟩
    · rw [if_neg he] at h
      rcases hin : innerLoop cfg trace cfg.pop_size
          { s with events := s.events ++ [Event.startGeneration s.evaluations s.best_fn],
                   no_improvement := s.no_improvement + 1 } []
        with ⟨s2, fns, ex⟩
      have hbud := innerLoop_budget cfg trace cfg.pop_size
        { s with events := s.events ++ [Event.startGeneration s.evaluations s.best_fn],
                 no_improvement := s.no_improvement + 1 } [] (by simp; omega)
      rw [hin] at hbud h
      simp only [countSamples_append] at hbud
      cases ex with
      | raisedE =>
        simp only [Option.some.injEq, Prod.mk.injEq] at h
        obtain ⟨rfl, rfl⟩ := h
        exact ⟨fun hx => absurd rfl hx, fun hx => by rcases hx with hx | hx <;> simp at hx⟩
      | interruptedE =>
        simp only [Option.some.injEq, Prod.mk.injEq] at h
        obtain ⟨rfl, rfl⟩ := h
        refine ⟨fun _ => ?_, fun hx => by rcases hx with hx | hx <;> simp at hx⟩
        have := hbud.1 (by simp)
        simp [countSamples, isSampleEv] at this ⊢
        omega
      | fellThrough =>
        have hrec := ih _ _ _ h
        refine ⟨fun hnf => ?_, hrec.2⟩
        have h1 := hrec.1 hnf
        have h2 := hbud.1 (by simp)
        simp only [countSamples_append] at h1
        simp [countSamples, isSampleEv] at h1 h2 ⊢
        omega
      | stopBudget =>
        simp only [Option.some.injEq, Prod.mk.injEq] at h
        obtain ⟨rfl, rfl⟩ := h
        have h2 := hbud.1 (by simp)
        have h0 := hbud.2.1 rfl
        refine ⟨fun _ => ?_, fun _ => by simpa using h0⟩
        simp only [countSamples_append]
        simp [countSamples, isSampleEv] at h2 ⊢
        omega
      | stopTimeout =>
        simp only [Option.some.injEq, Prod.mk.injEq] at h
        obtain ⟨rfl, rfl⟩ := h
        refine ⟨fun _ => ?_, fun hx => by rcases hx with hx | hx <;> simp at hx⟩
        have h2 := hbud.1 (by simp)
        simp only [countSamples_append]
        simp [countSamples, isSampleEv] at h2 ⊢
        omega
      | stopEarly =>
        simp only [Option.some.injEq, Prod.mk.injEq] at h
        obtain ⟨rfl, rfl⟩ := h
        refine ⟨fun _ => ?_, fun hx => by rcases hx with hx | hx <;> simp at hx⟩
        have h2 := hbud.1 (by simp)
        simp only [countSamples_append]
        simp [countSamples, isSampleEv] at h2 ⊢
        omega

theorem finalize_reason (p : RunState × Option StopReason) :
    (SearchAlgorithm.finalize p).reason = p.2 := by
  simp only [SearchAlgorithm.finalize]
  split_ifs <;> rfl

theorem finalize_evaluations (p : RunState × Option StopReason) :
    (SearchAlgorithm.finalize p).evaluations = p.1.evaluations := by
  simp only [SearchAlgorithm.finalize]
  split_ifs <;> rfl

theorem finalize_countSamples (p : RunState × Option StopReason) :
    countSamples (SearchAlgorithm.finalize p).events = countSamples p.1.events := by
  simp only [SearchAlgorithm.finalize]
  split_ifs <;> simp [countSamples, isSampleEv]

/-- Claim C1, counterexample: with `populationSize = 1`, budget `E = 2`, a
generator that never fails, no timeout, no early stop and no interrupt, but
`errorPolicy = raise` and a failing fitness function, `run` performs exactly
one fitness-evaluation attempt (not `E = 2`) and the failed attempt does not
decrement the budget (it stays 2): the fatal re-raise aborts the accounting
that the claim states unconditionally. -/
theorem claim_C1_counterexample :
    SearchAlgorithm.run cfgRaise traceFails 2 1 = some resultFatal ∧
    countSamples resultFatal.events = 1 ∧ resultFatal.evaluations = 2 := by
  exact ⟨by decide, by decide, rfl⟩

/-- Claim C1, amended: for every `populationSize ≥ 1` and finite budget
`E ≥ 1`, if the run terminates and neither the search timeout, nor the early
stop, nor an interrupt, *nor a fatal evaluation error under the "raise"
policy* ends it, then `run` performs exactly `E` fitness-evaluation attempts
and stops drawing with the budget at 0; the budget is decremented exactly
once per attempted evaluation (conserving attempts + remaining budget) and
never for a generator failure. -/
theorem claim_C1_amended (cfg : Config) (trace : Nat → DrawOutcome) (E fuel : Nat)
    (r : RunResult) (hpop : 1 ≤ cfg.pop_size) (hE : 1 ≤ E)
    (h : SearchAlgorithm.run cfg trace E fuel = some r)
    (hto : r.reason ≠ some StopReason.timeout)
    (hes : r.reason ≠ some StopReason.earlyStopped)
    (hint : r.reason ≠ some StopReason.interrupted)
    (hfat : r.reason ≠ some StopReason.fatal) :
    countSamples r.events = E ∧ r.evaluations = 0 := by
  simp only [SearchAlgorithm.run] at h
  rcases ho : outerLoop cfg trace fuel
      { evaluations := E, best_solution := none, best_fn := none,
        no_improvement := 0, draw_idx := 0, events := [Event.beginEv E] }
    with _ | ⟨s, reason⟩ <;> rw [ho] at h
  · exact absurd h (by simp)
  · simp only [Option.map_some', Option.some.injEq] at h
    subst h
    rw [finalize_reason] at hto hes hint hfat
    have hb := outerLoop_budget cfg trace fuel _ s reason ho
    have hbn : reason = some StopReason.budget ∨ reason = none := by
      cases reason with
      | none => exact Or.inr rfl
      | some sr => cases sr <;> simp_all
    have hz := hb.2 hbn
    have hc := hb.1 hfat
    refine ⟨?_, by rw [finalize_evaluations]; exact hz⟩
    rw [finalize_countSamples]
    simp only at hc
    simp [countSamples, isSampleEv] at hc ⊢
    omega

/-- Claim C1, witness: a two-evaluation budget with a never-failing generator
and fitness is spent in exactly two attempts, ending with budget 0. -/
theorem claim_C1_witness :
    countSamples resultPlain.events = 2 ∧ resultPlain.evaluations = 0 :=
  claim_C1_amended cfgPlain traceOnes 2 2 resultPlain (by decide) (by decide)
    (by decide) (by decide) (by decide) (by decide) (by decide)

theorem updateFns_errorEv (o : Option Nat) : updateFns [Event.errorEv o] = [] := rfl

theorem updateFns_sample (n : Nat) : updateFns [Event.sampleSolution n] = [] := rfl

theorem evalAttempt_bestInv (cfg : Config) (sol : Nat) (fn spent : ℚ)
    (s : RunState) (fns : List ℚ)
    (hm : s.best_fn = (updateFns s.events).getLast?)
    (hc : List.Chain' (bestRel cfg.maximize) (updateFns s.events)) :
    (evalAttempt cfg sol fn spent s fns).1.best_fn =
        (updateFns (evalAttempt cfg sol fn spent s fns).1.events).getLast? ∧
      List.Chain' (bestRel cfg.maximize)
        (updateFns (evalAttempt cfg sol fn spent s fns).1.events) := by
  by_cases h : improves cfg.maximize s.best_fn fn
  · have hev : (evalAttempt cfg sol fn spent s fns).1.events =
        s.events ++ [Event.evalSolution sol fn,
          Event.updateBestEv sol fn s.best_solution s.best_fn] := by
      simp [evalAttempt, h]
    have hbf : (evalAttempt cfg sol fn spent s fns).1.best_fn = some fn := by
      simp [evalAttempt, h]
    have hupd : updateFns ((evalAttempt cfg sol fn spent s fns).1.events) =
        updateFns s.events ++ [fn] := by
      rw [hev, updateFns_append]
      rfl
    constructor
    · rw [hbf, hupd, List.getLast?_concat]
    · rw [hupd]
      refine List.chain'_append.2 ⟨hc, List.chain'_singleton fn, ?_⟩
      intro x hx y hy
      simp only [List.head?_cons, Option.mem_def, Option.some.injEq] at hy
      subst hy
      have hsx : s.best_fn = some x := by
        rw [hm]
        exact hx
      rw [hsx] at h
      simp only [improves, Bool.or_eq_true, Bool.and_eq_true, decide_eq_true_eq,
        Bool.not_eq_true'] at h
      rcases h with ⟨hlt, hmx⟩ | ⟨hlt, hmx⟩ <;> simp [bestRel, hmx, hlt]
  · have hev : (evalAttempt cfg sol fn spent s fns).1.events =
        s.events ++ [Event.evalSolution sol fn] := by
      simp [evalAttempt, h]
    have hbf : (evalAttempt cfg sol fn spent s fns).1.best_fn = s.best_fn := by
      simp [evalAttempt, h]
    have hupd : updateFns ((evalAttempt cfg sol fn spent s fns).1.events) =
        updateFns s.events := by
      rw [hev, updateFns_append]
      simp [updateFns]
    rw [hbf, hupd]
    exact ⟨hm, hc⟩

theorem innerLoop_bestInv (cfg : Config) (trace : Nat → DrawOutcome) :
    ∀ (m : Nat) (s : RunState) (fns : List ℚ),
      s.best_fn = (updateFns s.events).getLast? →
      List.Chain' (bestRel cfg.maximize) (updateFns s.events) →
      (innerLoop cfg trace m s fns).1.best_fn =
          (updateFns (innerLoop cfg trace m s fns).1.events).getLast? ∧
        List.Chain' (bestRel cfg.maximize)
          (updateFns (innerLoop cfg trace m s fns).1.events) := by
  intro m
  induction m with
  | zero =>
    intro s fns hm hc
    exact ⟨hm, hc⟩
  | succ m ih =>
    intro s fns hm hc
    simp only [innerLoop]
    cases htr : trace s.draw_idx with
    | interrupt => exact ⟨hm, hc⟩
    | genFail =>
      exact ih _ fns (by simpa [updateFns_errorEv] using hm)
        (by simpa [updateFns_errorEv] using hc)
    | evalOk v spent =>
      have hm1 : ({ s with events := s.events ++ [Event.sampleSolution s.draw_idx] }
            : RunState).best_fn =
          (updateFns ({ s with events := s.events ++ [Event.sampleSolution s.draw_idx] }
            : RunState).events).getLast? := by
        simpa [updateFns_sample] using hm
      have hc1 : List.Chain' (bestRel cfg.maximize)
          (updateFns ({ s with events := s.events ++ [Event.sampleSolution s.draw_idx] }
            : RunState).events) := by
        simpa [updateFns_sample] using hc
      have hstep := evalAttempt_bestInv cfg s.draw_idx v spent
        { s with events := s.events ++ [Event.sampleSolution s.draw_idx] } fns hm1 hc1
      rcases hea : evalAttempt cfg s.draw_idx v spent
          { s with events := s.events ++ [Event.sampleSolution s.draw_idx] } fns
        with ⟨s2, fns2, oex⟩
      rw [hea] at hstep
      cases oex with
      | some ex' =>
        try simp only [hea]
        simpa using hstep
      | none =>
        try simp only [hea]
        exact ih s2 fns2 (by simpa using hstep.1) (by simpa using hstep.2)
    | evalFail spent =>
      by_cases hp : cfg.errors = ErrorPolicy.raisePolicy
      · simp only [hp, if_pos]
        constructor
        · simpa [updateFns, updateFns_append] using hm
        · simpa [updateFns, updateFns_append] using hc
      · simp only [hp, ite_false]
        have hm1 : ({ s with events := s.events ++
              [Event.sampleSolution s.draw_idx, Event.errorEv (some s.draw_idx)] }
              : RunState).best_fn =
            (updateFns ({ s with events := s.events ++
              [Event.sampleSolution s.draw_idx, Event.errorEv (some s.draw_idx)] }
              : RunState).events).getLast? := by
          simpa [updateFns, updateFns_append] using hm
        have hc1 : List.Chain' (bestRel cfg.maximize)
            (updateFns ({ s with events := s.events ++
              [Event.sampleSolution s.draw_idx, Event.errorEv (some s.draw_idx)] }
              : RunState).events) := by
          simpa [updateFns, updateFns_append] using hc
        have hstep := evalAttempt_bestInv cfg s.draw_idx 0 spent
          { s with events := s.events ++
              [Event.sampleSolution s.draw_idx, Event.errorEv (some s.draw_idx)] } fns hm1 hc1
        rcases hea : evalAttempt cfg s.draw_idx 0 spent
            { s with events := s.events ++
                [Event.sampleSolution s.draw_idx, Event.errorEv (some s.draw_idx)] } fns
          with ⟨s2, fns2, oex⟩
        rw [hea] at hstep
        cases oex with
        | some ex' =>
          try simp only [hea]
          simpa using hstep
        | none =>
          try simp only [hea]
          exact ih s2 fns2 (by simpa using hstep.1) (by simpa using hstep.2)

theorem outerLoop_bestInv (cfg : Config) (trace : Nat → DrawOutcome) :
    ∀ (f : Nat) (s s' : RunState) (r : Option StopReason),
      outerLoop cfg trace f s = some (s', r) →
      s.best_fn = (updateFns s.events).getLast? →
      List.Chain' (bestRel cfg.maximize) (updateFns s.events) →
      s'.best_fn = (updateFns s'.events).getLast? ∧
        List.Chain' (bestRel cfg.maximize) (updateFns s'.events) := by
  intro f
  induction f with
  | zero =>
    intro s s' r h hm hc
    simp only [outerLoop] at h
    by_cases he : s.evaluations = 0
    · rw [if_pos he] at h
      simp only [Option.some.injEq, Prod.mk.injEq] at h
      obtain ⟨rfl, rfl⟩ := h
      exact ⟨hm, hc⟩
    · rw [if_neg he] at h
      exact absurd h (by simp)
  | succ f ih =>
    intro s s' r h hm hc
    simp only [outerLoop] at h
    by_cases he : s.evaluations = 0
    · rw [if_pos he] at h
      simp only [Option.some.injEq, Prod.mk.injEq] at h
      obtain ⟨rfl, rfl⟩ := h
      exact ⟨hm, hc⟩
    · rw [if_neg he] at h
      rcases hin : innerLoop cfg trace cfg.pop_size
          { s with events := s.events ++ [Event.startGeneration s.evaluations s.best_fn],
                   no_improvement := s.no_improvement + 1 } []
        with ⟨s2, fns, ex⟩
      have hstep := innerLoop_bestInv cfg trace cfg.pop_size
        { s with events := s.events ++ [Event.startGeneration s.evaluations s.best_fn],
                 no_improvement := s.no_improvement + 1 } []
        (by simpa [updateFns, updateFns_append] using hm)
        (by simpa [updateFns, updateFns_append] using hc)
      rw [hin] at hstep h
      simp only at hstep
      cases ex with
      | raisedE =>
        simp only [Option.some.injEq, Prod.mk.injEq] at h
        obtain ⟨rfl, rfl⟩ := h
        exact hstep
      | interruptedE =>
        simp only [Option.some.injEq, Prod.mk.injEq] at h
        obtain ⟨rfl, rfl⟩ := h
        exact hstep
      | fellThrough =>
        refine ih _ _ _ h ?_ ?_
        · simpa [updateFns, updateFns_append] using hstep.1
        · simpa [updateFns, updateFns_append] using hstep.2
      | stopBudget =>
        simp only [Option.some.injEq, Prod.mk.injEq] at h
        obtain ⟨rfl, rfl⟩ := h
        constructor
        · simpa [updateFns, updateFns_append] using hstep.1
        · simpa [updateFns, updateFns_append] using hstep.2
      | stopTimeout =>
        simp only [Option.some.injEq, Prod.mk.injEq] at h
        obtain ⟨rfl, rfl⟩ := h
        constructor
        · simpa [updateFns, updateFns_append] using hstep.1
        · simpa [updateFns, updateFns_append] using hstep.2
      | stopEarly =>
        simp only [Option.some.injEq, Prod.mk.injEq] at h
        obtain ⟨rfl, rfl⟩ := h
        constructor
        · simpa [updateFns, updateFns_append] using hstep.1
        · simpa [updateFns, updateFns_append] using hstep.2

theorem finalize_updateFns (p : RunState × Option StopReason) :
    updateFns (SearchAlgorithm.finalize p).events = updateFns p.1.events := by
  simp only [SearchAlgorithm.finalize]
  split_ifs <;> simp [updateFns]

/-- Claim C2: over any terminating `run`, the successive `best_fn` values
(the fitness arguments of the `update_best` calls) form a strictly increasing
chain when `maximize = true` and a strictly decreasing one when `false` — so
`bestFitness` is monotone in the configured direction over time and an
evaluation tying the current best never updates it; moreover the update
condition holds iff the best is absent or the new fitness strictly improves
it in the configured direction, and is false on ties. -/
theorem claim_C2 (cfg : Config) (trace : Nat → DrawOutcome) (E fuel : Nat)
    (r : RunResult) (h : SearchAlgorithm.run cfg trace E fuel = some r) :
    List.Chain' (bestRel cfg.maximize) (updateFns r.events) ∧
    (∀ fn : ℚ, improves cfg.maximize none fn = true) ∧
    (∀ bf fn : ℚ, improves cfg.maximize (some bf) fn = true ↔
      ((cfg.maximize = true ∧ bf < fn) ∨ (cfg.maximize = false ∧ fn < bf))) ∧
    (∀ bf : ℚ, improves cfg.maximize (some bf) bf = false) := by
  refine ⟨?_, fun fn => rfl, ?_, ?_⟩
  · simp only [SearchAlgorithm.run] at h
    rcases ho : outerLoop cfg trace fuel
        { evaluations := E, best_solution := none, best_fn := none,
          no_improvement := 0, draw_idx := 0, events := [Event.beginEv E] }
      with _ | ⟨s, reason⟩ <;> rw [ho] at h
    · exact absurd h (by simp)
    · simp only [Option.map_some', Option.some.injEq] at h
      subst h
      rw [finalize_updateFns]
      exact (outerLoop_bestInv cfg trace fuel _ s reason ho rfl (by simp [updateFns])).2
  · intro bf fn
    cases hm : cfg.maximize <;>
      simp [improves, hm, Bool.or_eq_true, Bool.and_eq_true, decide_eq_true_eq]
  · intro bf
    cases hm : cfg.maximize <;> simp [improves, hm, lt_irrefl]

/-- Claim C2, witness: on a concrete maximising run the `update_best` fitness
sequence is strictly increasing. -/
theorem claim_C2_witness :
    List.Chain' (bestRel cfgPlain.maximize) (updateFns resultPlain.events) :=
  (claim_C2 cfgPlain traceOnes 2 2 resultPlain (by decide)).1

/-- Claim C4: if every fitness evaluation fails and `errorPolicy = raise`,
a run with budget ≥ 1, population ≥ 1 and fuel ≥ 1 terminates after exactly
one evaluation attempt; `end` is invoked exactly once, with the absent best,
before the failure is surfaced; the failure propagates (`raised`), and no
best candidate or fitness is produced. -/
theorem claim_C4 (cfg : Config) (trace : Nat → DrawOutcome) (E fuel : Nat)
    (hp : cfg.errors = ErrorPolicy.raisePolicy)
    (hpop : 1 ≤ cfg.pop_size) (hE : 1 ≤ E) (hf : 1 ≤ fuel)
    (htr : ∀ k, ∃ t, trace k = DrawOutcome.evalFail t) :
    ∃ r, SearchAlgorithm.run cfg trace E fuel = some r ∧
      r.raised = true ∧ r.reason = some StopReason.fatal ∧
      countSamples r.events = 1 ∧
      List.filter isEndEv r.events = [Event.endEv none none] ∧
      r.best_solution = none ∧ r.best_fn = none := by
  obtain ⟨t, ht⟩ := htr 0
  obtain ⟨f, rfl⟩ : ∃ f, fuel = f + 1 := ⟨fuel - 1, by omega⟩
  obtain ⟨p, hpp⟩ : ∃ p, cfg.pop_size = p + 1 := ⟨cfg.pop_size - 1, by omega⟩
  have hE0 : ¬E = 0 := by omega
  have houter : outerLoop cfg trace (f + 1)
      { evaluations := E, best_solution := none, best_fn := none,
        no_improvement := 0, draw_idx := 0, events := [Event.beginEv E] } =
      some ({ evaluations := E, best_solution := none, best_fn := none,
              no_improvement := 1, draw_idx := 0,
              events := [Event.beginEv E, Event.startGeneration E none,
                Event.sampleSolution 0, Event.errorEv (some 0),
                Event.endEv none none] }, some StopReason.fatal) := by
    simp only [outerLoop, if_neg hE0, hpp, innerLoop]
    simp [ht, hp]
  refine ⟨SearchAlgorithm.finalize
      ({ evaluations := E, best_solution := none, best_fn := none,
         no_improvement := 1, draw_idx := 0,
         events := [Event.beginEv E, Event.startGeneration E none,
           Event.sampleSolution 0, Event.errorEv (some 0), Event.endEv none none] },
        some StopReason.fatal), ?_, ?_, ?_, ?_, ?_, ?_, ?_⟩
  · show Option.map SearchAlgorithm.finalize _ = _
    rw [houter]
    rfl
  · simp [SearchAlgorithm.finalize]
  · simp [SearchAlgorithm.finalize]
  · simp [SearchAlgorithm.finalize, countSamples, isSampleEv]
  · simp [SearchAlgorithm.finalize, isEndEv]
  · simp [SearchAlgorithm.finalize]
  · simp [SearchAlgorithm.finalize]

/-- Claim C4, witness: the concrete all-failing run under the "raise" policy. -/
theorem claim_C4_witness :
    ∃ r, SearchAlgorithm.run cfgRaise traceFails 2 1 = some r ∧
      r.raised = true ∧ r.reason = some StopReason.fatal ∧
      countSamples r.events = 1 ∧
      List.filter isEndEv r.events = [Event.endEv none none] ∧
      r.best_solution = none ∧ r.best_fn = none :=
  claim_C4 cfgRaise traceFails 2 1 rfl (by decide) (by decide) (by decide)
    (fun _ => ⟨0, rfl⟩)

/-- Claim C6, counterexample: under `errorPolicy = continue`, a failed
evaluation whose fitness is forced to 0 *does* make `bestFitness` become 0
and the failing candidate become the best solution when no best exists yet:
the forced 0 goes through the ordinary best-update check. -/
theorem claim_C6_counterexample :
    SearchAlgorithm.run cfgPlain traceFails 1 1 = some resultFailBest ∧
    resultFailBest.best_fn = some 0 ∧ resultFailBest.best_solution = some 0 := by
  exact ⟨by decide, rfl, rfl⟩

theorem evalAttempt_countEvalSol (cfg : Config) (sol : Nat) (fn spent : ℚ)
    (s : RunState) (fns : List ℚ) :
    countEvalSol (evalAttempt cfg sol fn spent s fns).1.events =
      countEvalSol s.events + 1 := by
  by_cases h : improves cfg.maximize s.best_fn fn <;>
    simp [evalAttempt, h, countEvalSol, isEvalSolEv]

theorem countEvalSol_sample (n : Nat) : countEvalSol [Event.sampleSolution n] = 0 := rfl

theorem countEvalSol_error (o : Option Nat) : countEvalSol [Event.errorEv o] = 0 := rfl

theorem countEvalSol_sample_error (n : Nat) (o : Option Nat) :
    countEvalSol [Event.sampleSolution n, Event.errorEv o] = 0 := rfl

theorem innerLoop_noEval (cfg : Config) (trace : Nat → DrawOutcome) :
    ∀ (m : Nat) (s : RunState) (fns : List ℚ),
      countEvalSol s.events ≤ countEvalSol (innerLoop cfg trace m s fns).1.events ∧
      (countEvalSol (innerLoop cfg trace m s fns).1.events = countEvalSol s.events →
        (innerLoop cfg trace m s fns).1.best_fn = s.best_fn ∧
          (innerLoop cfg trace m s fns).1.best_solution = s.best_solution) := by
  intro m
  induction m with
  | zero =>
    intro s fns
    exact ⟨le_refl _, fun _ => ⟨rfl, rfl⟩⟩
  | succ m ih =>
    intro s fns
    simp only [innerLoop]
    cases htr : trace s.draw_idx with
    | interrupt => exact ⟨le_refl _, fun _ => ⟨rfl, rfl⟩⟩
    | genFail =>
      have hrec := ih { s with draw_idx := s.draw_idx + 1,
                               events := s.events ++ [Event.errorEv none] } fns
      simp only [countEvalSol_append, countEvalSol_error, Nat.add_zero] at hrec
      exact hrec
    | evalOk v spent =>
      rcases hea : evalAttempt cfg s.draw_idx v spent
          { s with events := s.events ++ [Event.sampleSolution s.draw_idx] } fns
        with ⟨s2, fns2, oex⟩
      have hcnt := evalAttempt_countEvalSol cfg s.draw_idx v spent
        { s with events := s.events ++ [Event.sampleSolution s.draw_idx] } fns
      rw [hea] at hcnt
      simp only [countEvalSol_append, countEvalSol_sample, Nat.add_zero] at hcnt
      cases oex with
      | some ex' =>
        try simp only [hea]
        refine ⟨by omega, fun hx => ?_⟩
        exact absurd hx (by omega)
      | none =>
        have hrec := ih s2 fns2
        try simp only [hea]
        refine ⟨?_, fun hx => ?_⟩
        · have h1 := hrec.1
          omega
        · have h1 := hrec.1
          exact absurd hx (by omega)
    | evalFail spent =>
      by_cases hp : cfg.errors = ErrorPolicy.raisePolicy
      · simp only [hp, if_pos]
        constructor
        · simp only [countEvalSol_append, countEvalSol_sample_error, Nat.add_zero]
          have : countEvalSol [Event.endEv s.best_solution s.best_fn] = 0 := rfl
          omega
        · exact fun _ => ⟨by trivial, by trivial⟩
      · simp only [hp, ite_false]
        rcases hea : evalAttempt cfg s.draw_idx 0 spent
            { s with events := s.events ++
                [Event.sampleSolution s.draw_idx, Event.errorEv (some s.draw_idx)] } fns
          with ⟨s2, fns2, oex⟩
        have hcnt := evalAttempt_countEvalSol cfg s.draw_idx 0 spent
          { s with events := s.events ++
              [Event.sampleSolution s.draw_idx, Event.errorEv (some s.draw_idx)] } fns
        rw [hea] at hcnt
        simp only [countEvalSol_append, countEvalSol_sample_error, Nat.add_zero] at hcnt
        cases oex with
        | some ex' =>
          try simp only [hea]
          refine ⟨by omega, fun hx => ?_⟩
          exact absurd hx (by omega)
        | none =>
          have hrec := ih s2 fns2
          try simp only [hea]
          refine ⟨?_, fun hx => ?_⟩
          · have h1 := hrec.1
            omega
          · have h1 := hrec.1
            exact absurd hx (by omega)

theorem countEvalSol_startGen (n : Nat) (b : Option ℚ) :
    countEvalSol [Event.startGeneration n b] = 0 := rfl

theorem countEvalSol_finishGen (fns : List ℚ) :
    countEvalSol [Event.finishGeneration fns] = 0 := rfl

theorem outerLoop_noEval (cfg : Config) (trace : Nat → DrawOutcome) :
    ∀ (f : Nat) (s s' : RunState) (r : Option StopReason),
      outerLoop cfg trace f s = some (s', r) →
      countEvalSol s.events ≤ countEvalSol s'.events ∧
      (countEvalSol s'.events = countEvalSol s.events →
        s'.best_fn = s.best_fn ∧ s'.best_solution = s.best_solution) := by
  intro f
  induction f with
  | zero =>
    intro s s' r h
    simp only [outerLoop] at h
    by_cases he : s.evaluations = 0
    · rw [if_pos he] at h
      simp only [Option.some.injEq, Prod.mk.injEq] at h
      obtain ⟨rfl, rfl⟩ := h
      exact ⟨le_refl _, fun _ => ⟨rfl, rfl⟩⟩
    · rw [if_neg he] at h
      exact absurd h (by simp)
  | succ f ih =>
    intro s s' r h
    simp only [outerLoop] at h
    by_cases he : s.evaluations = 0
    · rw [if_pos he] at h
      simp only [Option.some.injEq, Prod.mk.injEq] at h
      obtain ⟨rfl, rfl⟩ := h
      exact ⟨le_refl _, fun _ => ⟨rfl, rfl⟩⟩
    · rw [if_neg he] at h
      rcases hin : innerLoop cfg trace cfg.pop_size
          { s with events := s.events ++ [Event.startGeneration s.evaluations s.best_fn],
                   no_improvement := s.no_improvement + 1 } []
        with ⟨s2, fns, ex⟩
      have hstep := innerLoop_noEval cfg trace cfg.pop_size
        { s with events := s.events ++ [Event.startGeneration s.evaluations s.best_fn],
                 no_improvement := s.no_improvement + 1 } []
      rw [hin] at hstep h
      simp only [countEvalSol_append, countEvalSol_startGen, Nat.add_zero] at hstep
      cases ex with
      | raisedE =>
        simp only [Option.some.injEq, Prod.mk.injEq] at h
        obtain ⟨rfl, rfl⟩ := h
        exact ⟨hstep.1, fun hx => hstep.2 hx⟩
      | interruptedE =>
        simp only [Option.some.injEq, Prod.mk.injEq] at h
        obtain ⟨rfl, rfl⟩ := h
        exact ⟨hstep.1, fun hx => hstep.2 hx⟩
      | fellThrough =>
        have hrec := ih _ _ _ h
        simp only [countEvalSol_append, countEvalSol_finishGen, Nat.add_zero] at hrec
        refine ⟨le_trans hstep.1 hrec.1, fun hx => ?_⟩
        have h1 := hstep.1
        have h2 := hrec.1
        have hx2 : countEvalSol s'.events = countEvalSol s2.events := by omega
        have hx1 : countEvalSol s2.events = countEvalSol s.events := by omega
        obtain ⟨hb1, hb2⟩ := hrec.2 hx2
        obtain ⟨hc1, hc2⟩ := hstep.2 hx1
        exact ⟨hb1.trans hc1, hb2.trans hc2⟩
      | stopBudget =>
        simp only [Option.some.injEq, Prod.mk.injEq] at h
        obtain ⟨rfl, rfl⟩ := h
        simp only [countEvalSol_append, countEvalSol_finishGen, Nat.add_zero]
        exact ⟨hstep.1, fun hx => hstep.2 hx⟩
      | stopTimeout =>
        simp only [Option.some.injEq, Prod.mk.injEq] at h
        obtain ⟨rfl, rfl⟩ := h
        simp only [countEvalSol_append, countEvalSol_finishGen, Nat.add_zero]
        exact ⟨hstep.1, fun hx => hstep.2 hx⟩
      | stopEarly =>
        simp only [Option.some.injEq, Prod.mk.injEq] at h
        obtain ⟨rfl, rfl⟩ := h
        simp only [countEvalSol_append, countEvalSol_finishGen, Nat.add_zero]
        exact ⟨hstep.1, fun hx => hstep.2 hx⟩

theorem finalize_best_fn (p : RunState × Option StopReason) :
    (SearchAlgorithm.finalize p).best_fn = p.1.best_fn := by
  simp only [SearchAlgorithm.finalize]
  split_ifs <;> rfl

theorem finalize_best_solution (p : RunState × Option StopReason) :
    (SearchAlgorithm.finalize p).best_solution = p.1.best_solution := by
  simp only [SearchAlgorithm.finalize]
  split_ifs <;> rfl

theorem finalize_countEvalSol (p : RunState × Option StopReason) :
    countEvalSol (SearchAlgorithm.finalize p).events = countEvalSol p.1.events := by
  simp only [SearchAlgorithm.finalize]
  split_ifs <;> simp [countEvalSol, isEvalSolEv]

/-- Claim C6, amended: `bestFitness` starts as absence (`None`), not zero, and
stays absent as long as no evaluation completes the loop body (in particular
generator failures never create a best); however, under `errorPolicy =
continue` a failed evaluation's forced fitness 0 does participate in the
best-update check, so the failing candidate becomes the best (with
`bestFitness = 0`) when no best exists yet or when 0 strictly improves the
current best. -/
theorem claim_C6_amended (cfg : Config) (trace : Nat → DrawOutcome) (E fuel : Nat)
    (r : RunResult) (h : SearchAlgorithm.run cfg trace E fuel = some r)
    (hz : countEvalSol r.events = 0) :
    r.best_fn = none ∧ r.best_solution = none := by
  simp only [SearchAlgorithm.run] at h
  rcases ho : outerLoop cfg trace fuel
      { evaluations := E, best_solution := none, best_fn := none,
        no_improvement := 0, draw_idx := 0, events := [Event.beginEv E] }
    with _ | ⟨s, reason⟩ <;> rw [ho] at h
  · exact absurd h (by simp)
  · simp only [Option.map_some', Option.some.injEq] at h
    subst h
    rw [finalize_countEvalSol] at hz
    have hstep := outerLoop_noEval cfg trace fuel _ s reason ho
    have := hstep.2 (by rw [hz]; rfl)
    rw [finalize_best_fn, finalize_best_solution]
    simpa using this

/-- Claim C6, amended, witness: a zero-budget run performs no evaluation and
returns the absent best. -/
theorem claim_C6_witness :
    resultEmptyRun.best_fn = none ∧ resultEmptyRun.best_solution = none :=
  claim_C6_amended cfgPlain traceOnes 0 0 resultEmptyRun (by decide) (by decide)

theorem outerLoop_plateau (N : Nat) (hN : 1 ≤ N) :
    ∀ (d f : Nat) (s : RunState),
      d ≤ N → s.no_improvement = N - d → s.best_fn = some 1 →
      d + 2 ≤ s.evaluations → d + 1 ≤ f →
      ∃ s', outerLoop (cfg5 N) traceOnes f s = some (s', some StopReason.earlyStopped) ∧
        countStartGen s'.events = countStartGen s.events + (d + 1) := by
  intro d
  induction d with
  | zero =>
    intro f s hdN hst hbf he hf
    obtain ⟨f0, rfl⟩ : ∃ f0, f = f0 + 1 := ⟨f - 1, by omega⟩
    have he0 : ¬s.evaluations = 0 := by omega
    have hne1 : ¬(s.evaluations - 1 = 0) := by omega
    have hto : timeoutHit (cfg5 N) 0 = false := rfl
    have himp : improves (cfg5 N).maximize (some (1 : ℚ)) 1 = false := by
      exact (by decide : improves true (some (1 : ℚ)) 1 = false)
    have hes : earlyStopHit (cfg5 N) (s.no_improvement + 1) = true := by
      simp [earlyStopHit, cfg5]
      omega
    refine ⟨{ evaluations := s.evaluations - 1, best_solution := s.best_solution,
              best_fn := some 1, no_improvement := s.no_improvement + 1,
              draw_idx := s.draw_idx + 1,
              events := s.events ++ [Event.startGeneration s.evaluations (some 1)] ++
                [Event.sampleSolution s.draw_idx] ++ [Event.evalSolution s.draw_idx 1] ++
                [Event.finishGeneration [1]] }, ?_, ?_⟩
    · simp only [outerLoop, if_neg he0]
      simp only [show (cfg5 N).pop_size = 1 from rfl, innerLoop, traceOnes]
      simp only [evalAttempt, hbf, himp, Bool.false_eq_true, if_false,
        hne1, ite_false, hto, hes, if_true]
      simp
    · simp [countStartGen, isStartGenEv]
      try omega
  | succ d ih =>
    intro f s hdN hst hbf he hf
    obtain ⟨f0, rfl⟩ : ∃ f0, f = f0 + 1 := ⟨f - 1, by omega⟩
    have he0 : ¬s.evaluations = 0 := by omega
    have hne1 : ¬(s.evaluations - 1 = 0) := by omega
    have hto : timeoutHit (cfg5 N) 0 = false := rfl
    have himp : improves (cfg5 N).maximize (some (1 : ℚ)) 1 = false := by
      exact (by decide : improves true (some (1 : ℚ)) 1 = false)
    have hes : earlyStopHit (cfg5 N) (s.no_improvement + 1) = false := by
      simp [earlyStopHit, cfg5]
      omega
    obtain ⟨s', hs', hcnt⟩ := ih f0
      { s with
          events := (s.events ++ [Event.startGeneration s.evaluations (some 1)] ++
            [Event.sampleSolution s.draw_idx] ++ [Event.evalSolution s.draw_idx 1]) ++
            [Event.finishGeneration [1]],
          no_improvement := s.no_improvement + 1,
          evaluations := s.evaluations - 1,
          draw_idx := s.draw_idx + 1 }
      (by omega) (by simp; omega) (by simp [hbf]) (by simp; omega) (by omega)
    refine ⟨s', ?_, ?_⟩
    · simp only [outerLoop, if_neg he0]
      simp only [show (cfg5 N).pop_size = 1 from rfl, innerLoop, traceOnes]
      simp only [evalAttempt, hbf, himp, Bool.false_eq_true, if_false,
        hne1, ite_false, hto, hes, innerLoop]
      convert hs' using 2 <;> simp [hbf]
    · rw [hcnt]
      simp [countStartGen, isStartGenEv]
      omega

theorem finalize_countStartGen (p : RunState × Option StopReason) :
    countStartGen (SearchAlgorithm.finalize p).events = countStartGen p.1.events := by
  simp only [SearchAlgorithm.finalize]
  split_ifs <;> simp [countStartGen, isStartGenEv]

/-- Claim C5, counterexample: with `earlyStopThreshold N = 1`, a first
improving evaluation and a plateau afterwards (no other stop condition
interfering), the run executes 3 generations — the improving one plus 2
further generations without improvement — not the claimed 1 + N = 2: the
stop condition `noImprovementStreak > N` only fires in the (N+1)-th
non-improving generation. -/
theorem claim_C5_counterexample :
    SearchAlgorithm.run (cfg5 1) traceOnes 10 10 = some result5 ∧
    countStartGen result5.events = 3 := by
  exact ⟨by decide, by decide⟩

/-- Claim C5, amended: if `earlyStopThreshold = N ≥ 1` is configured, the
first evaluation improves and no subsequent evaluation improves the best,
and neither the budget (E ≥ N + 3) nor the timeout nor an interrupt
intervenes, then the run terminates by early stop after exactly `N + 1`
further generations without improvement (N + 2 generations in total): the
streak increments at the start of each generation, resets only on
improvement, and the run stops when `noImprovementStreak > N`. -/
theorem claim_C5_amended (N E fuel : Nat) (hN : 1 ≤ N) (hE : N + 3 ≤ E)
    (hf : N + 2 ≤ fuel) :
    ∃ r, SearchAlgorithm.run (cfg5 N) traceOnes E fuel = some r ∧
      r.reason = some StopReason.earlyStopped ∧
      countStartGen r.events = N + 2 := by
  obtain ⟨f0, rfl⟩ : ∃ f0, fuel = f0 + 1 := ⟨fuel - 1, by omega⟩
  have he0 : ¬(E = 0) := by omega
  have hne1 : ¬(E - 1 = 0) := by omega
  have hto : timeoutHit (cfg5 N) 0 = false := rfl
  have himp : improves (cfg5 N).maximize (none : Option ℚ) 1 = true := by
    exact (by decide : improves true (none : Option ℚ) 1 = true)
  have hes : earlyStopHit (cfg5 N) 0 = false := by
    simp [earlyStopHit, cfg5]
  obtain ⟨s', hs', hcnt⟩ := outerLoop_plateau N hN N f0
    { evaluations := E - 1, best_solution := some 0, best_fn := some 1,
      no_improvement := 0, draw_idx := 1,
      events := [Event.beginEv E, Event.startGeneration E none,
        Event.sampleSolution 0, Event.evalSolution 0 1,
        Event.updateBestEv 0 1 none none, Event.finishGeneration [1]] }
    (le_refl N) (by simp) rfl (by simp; omega) (by omega)
  refine ⟨SearchAlgorithm.finalize (s', some StopReason.earlyStopped), ?_, ?_, ?_⟩
  · show Option.map SearchAlgorithm.finalize _ = _
    have houter : outerLoop (cfg5 N) traceOnes (f0 + 1)
        { evaluations := E, best_solution := none, best_fn := none,
          no_improvement := 0, draw_idx := 0, events := [Event.beginEv E] } =
        some (s', some StopReason.earlyStopped) := by
      simp only [outerLoop, if_neg he0]
      simp only [show (cfg5 N).pop_size = 1 from rfl, innerLoop, traceOnes]
      simp only [evalAttempt, himp, if_true, hne1, ite_false, hto, hes, innerLoop]
      convert hs' using 2 <;> simp
    rw [houter]
    rfl
  · rw [finalize_reason]
  · rw [finalize_countStartGen]
    simp only
    rw [hcnt]
    simp [countStartGen, isStartGenEv]
    omega

/-- Claim C5, amended, witness: the concrete `N = 1` scenario runs exactly
three generations and stops early. -/
theorem claim_C5_witness :
    ∃ r, SearchAlgorithm.run (cfg5 1) traceOnes 10 10 = some r ∧
      r.reason = some StopReason.earlyStopped ∧
      countStartGen r.events = 1 + 2 :=
  claim_C5_amended 1 10 10 (by decide) (by decide) (by decide)
